import Mathlib

/-!
Verification of the batch image-conversion pipeline of the
image-format-converter repository.

The repository ships several variants of an ImageConverter React component.
The variant embedded here for the conversion pipeline is the one in
src/src/components/ImageConverter.tsx that actually performs conversions
(its functions convertImage, handleConversion, removeFile); the variant in
src/unnamed/part_001 is embedded for intake (onDrop), the simulated batch
status machine (handleConvert) and the unmount cleanup effect.

Strings are modelled as lists of characters (List Char); the JavaScript
string operations used by the code (split, template concatenation) are
defined below, faithful to their JavaScript semantics.
-/

namespace ImageConv

/-! ## Output filename computation (source: convertImage / handleConversion)

The code computes the output name as
  file.name.split(".")[0] + "." + targetFormat
splitOnDot is the JavaScript String.prototype.split on the dot separator:
it always returns a non-empty array, and splitting the empty string yields
one empty piece. -/

/-- From the source: JavaScript split on the dot character. -/
def splitOnDot : List Char → List (List Char)
  | [] => [[]]
  | c :: cs =>
    if c = '.' then [] :: splitOnDot cs
    else
      match splitOnDot cs with
      | [] => [[c]]
      | s :: rest => (c :: s) :: rest

/-- From the source (handleConversion, lines 256-261): the output filename is
element 0 of the split of the original name, then a dot, then the target
format string. -/
def outputFileName (fmt name : List Char) : List Char :=
  (splitOnDot name).headD [] ++ '.' :: fmt

/-- Stem of a filename as the spec words it: the part before the first dot. -/
def specStem (name : List Char) : List Char :=
  name.takeWhile (fun c => ¬ (c = '.'))

/-! ## The conversion pipeline (source: handleConversion, lines 245-294)

convertImage decodes the image in the browser and re-encodes it on a canvas;
whether it resolves or rejects is decided by the environment (image decode
and canvas encode are native calls). A source file is therefore modelled
with an ok flag recording whether convertImage succeeds on it. -/

/-- Model of one dropped file as seen by the conversion loop: its name and
whether convertImage resolves for it. -/
structure SrcFile where
  name : List Char
  ok : Bool
deriving DecidableEq, Repr

/-- Outcome of the try block body of handleConversion: the convertedFiles
array built so far, the files convertImage was invoked on, and the thrown
error (name of the failing file) if any. -/
structure LoopOut where
  converted : List (List Char)
  attempted : List (List Char)
  failed : Option (List Char)
deriving DecidableEq, Repr

/-- From the source: the for loop inside the try block of handleConversion.
Files are visited in order; a rejection of convertImage throws, so the loop
stops at the first failing file. Converted names accumulated before the
failure remain in the local convertedFiles array. -/
def convertLoop (fmt : List Char) : List SrcFile → LoopOut
  | [] => ⟨[], [], none⟩
  | f :: fs =>
    if f.ok then
      let r := convertLoop fmt fs
      ⟨outputFileName fmt f.name :: r.converted, f.name :: r.attempted, r.failed⟩
    else
      ⟨[], [f.name], some f.name⟩

/-- From the source: the progress writes made inside the loop,
setProgress(((i + 1) / files.length) * 100) after each successful file;
a failing file throws before its write. n is files.length. -/
def progressLoop (n : ℕ) : List SrcFile → ℕ → List ℚ
  | [], _ => []
  | f :: fs, i =>
    if f.ok then (((i : ℚ) + 1) / (n : ℚ)) * 100 :: progressLoop n fs (i + 1)
    else []

/-- Component state touched by handleConversion. -/
structure ConvState where
  converting : Bool
  progress : ℚ
deriving DecidableEq, Repr

/-- Observable outcome of one handleConversion call. -/
structure RunResult where
  finalState : ConvState
  downloads : List (List Char)
  attempted : List (List Char)
  progressWrites : List ℚ
  convertingSet : Bool
deriving DecidableEq, Repr

/-- From the source (handleConversion, lines 245-294): early return on an
empty file list; otherwise set converting, reset progress, run the loop in
a try block, download every converted file only when no error was thrown,
and in the finally block clear converting and reset progress to 0. -/
def handleConversion (fmt : List Char) (files : List SrcFile) (s : ConvState) :
    RunResult :=
  if files.length = 0 then ⟨s, [], [], [], false⟩
  else
    let r := convertLoop fmt files
    let downloads := match r.failed with
      | none => r.converted
      | some _ => []
    ⟨⟨false, 0⟩, downloads, r.attempted,
      (0 : ℚ) :: progressLoop files.length files 0 ++ [(0 : ℚ)], true⟩

/-! ## Image transform dimensions (source: convertImage, lines 213-243)

The code draws the decoded image on a canvas whose dimensions are the native
image dimensions: canvas.width = img.width and canvas.height = img.height.
No maxWidth or maxHeight is consulted anywhere in convertImage. -/

/-- Target format enumeration of the settings surface. -/
inductive ImgFormat
  | jpeg
  | png
  | webp
deriving DecidableEq, Repr

/-- Settings snapshot described by the spec (format, quality 1-100, maximum
dimensions). -/
structure ConvSettings where
  format : ImgFormat
  quality : ℕ
  maxWidth : ℕ
  maxHeight : ℕ
deriving DecidableEq, Repr

/-- From the source (convertImage, lines 217-219): the output surface is
created with the native width and height of the decoded image; the settings
are not consulted. -/
def convertDims (_s : ConvSettings) (w h : ℕ) : ℕ × ℕ := (w, h)

/-- Modelled from the spec: the aspect-ratio-preserving resize that the spec
describes for ImageTransformer step 2 — keep (W, H) when within bounds,
otherwise scale by min(maxWidth/W, maxHeight/H) clamped to at most 1 and
round each dimension. This computation does not appear in the source; it is
stated only to compare the source against the claim. -/
def specTargetDims (s : ConvSettings) (w h : ℕ) : ℕ × ℕ :=
  if w ≤ s.maxWidth ∧ h ≤ s.maxHeight then (w, h)
  else
    let scale : ℚ := min (min ((s.maxWidth : ℚ) / (w : ℚ)) ((s.maxHeight : ℚ) / (h : ℚ))) 1
    ((round ((w : ℚ) * scale)).toNat, (round ((h : ℚ) * scale)).toNat)

/-! ## Encoder invocation (source: convertImage, lines 228-238)

The code calls canvas.toBlob(callback, `image/${targetFormat}`, 0.9): the
MIME type is built from the target format and the quality argument is the
literal 0.9, independent of the quality setting. -/

/-- From the source: the MIME type argument of the toBlob call. -/
def toBlobMime (fmt : List Char) : List Char := "image/".data ++ fmt

/-- From the source: the quality argument of the toBlob call, the literal
0.9 — the settings are not consulted. -/
def toBlobQuality (_s : ConvSettings) : ℚ := 9 / 10

/-! ## File removal (source: removeFile, lines 204-211)

removeFile receives an index: it copies the files array, revokes the
object URL newFiles[index].preview and splices the entry out. When the
index is out of range, newFiles[index] is undefined and reading .preview
of undefined throws a TypeError; the model returns that error. -/

/-- Model of a tracked file of the conversion variant: name plus the
preview object URL allocated at drop time. -/
structure TrackedImg where
  name : List Char
  preview : List Char
deriving DecidableEq, Repr

/-- From the source (removeFile, lines 204-211): on a valid index, return
the list with that entry spliced out together with the one revoked preview
handle; on an out-of-range index the code throws a TypeError. -/
def removeFile (files : List TrackedImg) (i : ℕ) :
    Except (List Char) (List TrackedImg × List Char) :=
  if h : i < files.length then
    Except.ok (files.eraseIdx i, (files.get ⟨i, h⟩).preview)
  else
    Except.error "TypeError".data

/-! ## Intake (source: part_001 onDrop, lines 89-104)

onDrop receives the files accepted by the dropzone type filter. The code
only logs a console warning when some file exceeds 10 MB; every accepted
file, oversized or not, is given a preview object URL and a pending status
and appended to the tracked list. -/

/-- Statuses used by the part_001 variant (and the third variant of
ImageConverter.tsx). -/
inductive FileStatus
  | pending
  | converting
  | done
  | error
deriving DecidableEq, Repr

/-- Candidate file as delivered by the dropzone: name and size in bytes. -/
structure RawFile where
  name : List Char
  size : ℕ
deriving DecidableEq, Repr

/-- Tracked entry produced by intake: metadata plus preview handle and
status. -/
structure DroppedFile where
  name : List Char
  size : ℕ
  preview : List Char
  status : FileStatus
deriving DecidableEq, Repr

/-- From the source: the size threshold of the console warning,
10 * 1024 * 1024 bytes. -/
def sizeWarnLimit : ℕ := 10 * 1024 * 1024

/-- Model of URL.createObjectURL: a fresh object URL for the file. -/
def mkPreview (f : RawFile) : List Char := "blob:".data ++ f.name

/-- From the source (onDrop, lines 89-104): report (as a console warning)
whether some accepted file exceeds the size threshold, then append every
accepted file to the tracked list with a fresh preview and pending status.
The boolean is whether the warning fired. -/
def onDrop (prev : List DroppedFile) (accepted : List RawFile) :
    List DroppedFile × Bool :=
  (prev ++ accepted.map (fun f => ⟨f.name, f.size, mkPreview f, FileStatus.pending⟩),
   accepted.any (fun f => sizeWarnLimit < f.size))

/-! ## Component lifecycle and preview-handle cleanup (source: part_001,
lines 68-79)

The unmount cleanup effect is registered with an empty dependency list, so
it runs once and its closure captures the files state of the first render,
which is the initial empty array. At unmount the cleanup revokes the
preview of each file in that captured array — not in the current files
state. The model carries both the live state and the captured array. -/

/-- Component state relevant to preview-handle lifetime: the current files
and the files array captured by the unmount cleanup closure. -/
structure ConverterComp where
  files : List DroppedFile
  cleanupCapture : List DroppedFile
deriving DecidableEq, Repr

/-- From the source: at mount, files is the initial empty array and the
cleanup effect (empty dependency list) captures exactly that value. -/
def mountComp : ConverterComp := ⟨[], []⟩

/-- From the source: dropping files updates the files state through onDrop;
the cleanup closure is not re-registered (empty dependency list), so its
captured array is unchanged. -/
def compDrop (c : ConverterComp) (accepted : List RawFile) : ConverterComp :=
  ⟨(onDrop c.files accepted).1, c.cleanupCapture⟩

/-- From the source (lines 70-78): the handles revoked at unmount are the
previews of the files in the array captured by the cleanup closure. -/
def unmountRevoked (c : ConverterComp) : List (List Char) :=
  c.cleanupCapture.map (fun f => f.preview)

/-- Preview handles still live in the component right before teardown. -/
def liveHandles (c : ConverterComp) : List (List Char) :=
  c.files.map (fun f => f.preview)

/-! ## Simulated batch status machine (source: ImageConverter.tsx
handleConvert lines 438-455, and part_001 handleConvert lines 141-175)

handleConvert first maps every file (whatever its current status) to
converting, then for i = 0, 1, ... sets the file at index i to done. -/

/-- JavaScript Array.prototype.map with the index argument, starting the
index count at k. -/
def mapWithIndex (f : ℕ → α → α) : ℕ → List α → List α
  | _, [] => []
  | k, a :: as => f k a :: mapWithIndex f (k + 1) as

/-- From the source (line 443 and part_001 line 154): at batch start every
file is mapped to converting, regardless of its current status. -/
def batchStart (ss : List FileStatus) : List FileStatus :=
  ss.map (fun _ => FileStatus.converting)

/-- From the source (lines 448-450 and part_001 lines 160-166): after the
simulated conversion of file i, the file at index i is mapped to done. -/
def markDone (i : ℕ) (ss : List FileStatus) : List FileStatus :=
  mapWithIndex (fun j s => if j = i then FileStatus.done else s) 0 ss

/-- Status list after batch start followed by the first k loop iterations
of handleConvert. -/
def convertSteps (ss : List FileStatus) : ℕ → List FileStatus
  | 0 => batchStart ss
  | k + 1 => markDone k (convertSteps ss k)

/-! ## Helper lemmas -/

theorem splitOnDot_ne_nil (name : List Char) : splitOnDot name ≠ [] := by
  cases name with
  | nil => simp [splitOnDot]
  | cons c cs =>
    simp only [splitOnDot]
    by_cases h : c = '.'
    · simp [h]
    · simp only [h, if_false]
      cases splitOnDot cs <;> simp

theorem headD_splitOnDot (name : List Char) :
    (splitOnDot name).headD [] = specStem name := by
  induction name with
  | nil => simp [splitOnDot, specStem]
  | cons c cs ih =>
    by_cases h : c = '.'
    · simp [splitOnDot, specStem, h]
    · simp only [splitOnDot, h, if_false]
      have hne := splitOnDot_ne_nil cs
      cases hsp : splitOnDot cs with
      | nil => exact absurd hsp hne
      | cons s rest =>
        simp only [hsp, List.headD_cons] at ih
        simp [ih, h, specStem, List.takeWhile_cons]

theorem outputFileName_eq_spec (fmt name : List Char) :
    outputFileName fmt name = specStem name ++ '.' :: fmt := by
  unfold outputFileName
  rw [headD_splitOnDot]

theorem getElem?_mapWithIndex (f : ℕ → α → α) (l : List α) (k j : ℕ) :
    (mapWithIndex f k l)[j]? = l[j]?.map (f (k + j)) := by
  induction l generalizing k j with
  | nil => simp [mapWithIndex]
  | cons a as ih =>
    cases j with
    | zero => simp [mapWithIndex]
    | succ j =>
      have h : k + (j + 1) = (k + 1) + j := by omega
      simp only [mapWithIndex, List.getElem?_cons_succ, ih (k + 1) j, h]

theorem progressLoop_formula (n : ℕ) (files : List SrcFile) (i : ℕ)
    (hok : ∀ g ∈ files, g.ok = true) :
    progressLoop n files i =
      (List.range files.length).map
        (fun k => ((((i + k : ℕ) : ℚ) + 1) / (n : ℚ)) * 100) := by
  induction files generalizing i with
  | nil => simp [progressLoop]
  | cons f fs ih =>
    have hf : f.ok = true := hok f (by simp)
    simp only [progressLoop, hf, if_true, List.length_cons]
    rw [List.range_succ_eq_map, List.map_cons, List.map_map,
      ih (i + 1) (fun g hg => hok g (by simp [hg]))]
    refine List.cons_eq_cons.mpr ⟨by norm_num, ?_⟩
    apply List.map_congr_left
    intro k _
    simp only [Function.comp_apply]
    push_cast
    ring_nf

theorem progressLoop_chain (n : ℕ) (hn : 0 < n) (files : List SrcFile) :
    ∀ (i : ℕ) (c : ℚ), (∀ g ∈ files, g.ok = true) →
      c ≤ (((i : ℚ) + 1) / (n : ℚ)) * 100 →
      List.Chain' (fun a b => a ≤ b) (c :: progressLoop n files i) := by
  induction files with
  | nil =>
    intro i c _ _
    simp [progressLoop]
  | cons f fs ih =>
    intro i c hok hc
    have hf : f.ok = true := hok f (by simp)
    simp only [progressLoop, hf, if_true]
    rw [List.chain'_cons]
    refine ⟨hc, ih (i + 1) _ (fun g hg => hok g (by simp [hg])) ?_⟩
    have hnpos : (0 : ℚ) < (n : ℚ) := by exact_mod_cast hn
    have hstep : ((i : ℚ) + 1) ≤ (((i + 1 : ℕ) : ℚ) + 1) := by
      push_cast
      linarith
    gcongr

theorem progressLoop_getLast (files : List SrcFile)
    (hok : ∀ g ∈ files, g.ok = true) (hne : files ≠ []) :
    (progressLoop files.length files 0).getLast? = some 100 := by
  obtain ⟨m, hm⟩ : ∃ m, files.length = m + 1 := by
    cases files with
    | nil => exact absurd rfl hne
    | cons f fs => exact ⟨fs.length, rfl⟩
  rw [progressLoop_formula files.length files 0 hok]
  conv_lhs => rw [hm, List.range_succ, List.map_append, List.map_cons, List.map_nil]
  rw [List.getLast?_concat]
  have hmn : ((m : ℚ) + 1) ≠ 0 := by positivity
  congr 1
  push_cast
  field_simp

/-! ## Claim theorems -/

/-- C10: invoking the batch conversion with an empty tracked-file set is a
complete no-op: handleConversion returns immediately with the component
state unchanged, the converting flag never set, no progress write, no file
attempted and no download. -/
theorem handleConversion_empty_noop (fmt : List Char) (s : ConvState) :
    handleConversion fmt [] s = ⟨s, [], [], [], false⟩ := rfl

/-- C5: every filename in the converted output of a batch run is the stem of
a successfully converted source file (the part of its name before the first
dot) followed by a dot and the target format string; in particular input
photo.JPG with target format webp yields output name photo.webp. -/
theorem converted_name_is_stem_dot_format :
    (∀ (fmt : List Char) (files : List SrcFile) (out : List Char),
        out ∈ (convertLoop fmt files).converted →
        ∃ f, f ∈ files ∧ f.ok = true ∧ out = specStem f.name ++ '.' :: fmt) ∧
    outputFileName "webp".data "photo.JPG".data = "photo.webp".data := by
  constructor
  · intro fmt files
    induction files with
    | nil => intro out hout; simp [convertLoop] at hout
    | cons f fs ih =>
      intro out hout
      by_cases hf : f.ok
      · simp only [convertLoop, hf, if_true, List.mem_cons] at hout
        rcases hout with h | h
        · exact ⟨f, by simp, hf, by rw [h, outputFileName_eq_spec]⟩
        · rcases ih out h with ⟨g, hg, hgok, hgout⟩
          exact ⟨g, by simp [hg], hgok, hgout⟩
      · simp only [convertLoop, if_neg hf] at hout
        simp at hout
  · decide

/-- Witness for C5 at a concrete batch: photo.webp is among the outputs of
converting photo.JPG to webp, and it is the stem plus the extension. -/
theorem converted_name_is_stem_dot_format_witness :
    ∃ f, f ∈ [SrcFile.mk "photo.JPG".data true] ∧ f.ok = true ∧
      "photo.webp".data = specStem f.name ++ '.' :: "webp".data :=
  converted_name_is_stem_dot_format.1 "webp".data
    [SrcFile.mk "photo.JPG".data true] "photo.webp".data (by decide)

/-- C2 fails on the code: the whole conversion loop sits inside one try
block, so the first failing file throws past its siblings. In the batch
[bad.png (failing), good.png (convertible)] only bad.png is ever attempted,
good.png never reaches completion, and nothing is downloaded. -/
theorem failure_halts_batch_cex :
    (handleConversion "webp".data
        [⟨"bad.png".data, false⟩, ⟨"good.png".data, true⟩] ⟨false, 0⟩).attempted
      = ["bad.png".data] ∧
    ¬ ("good.png".data ∈ (handleConversion "webp".data
        [⟨"bad.png".data, false⟩, ⟨"good.png".data, true⟩] ⟨false, 0⟩).attempted) ∧
    (handleConversion "webp".data
        [⟨"bad.png".data, false⟩, ⟨"good.png".data, true⟩] ⟨false, 0⟩).downloads
      = [] := by
  refine ⟨rfl, by decide, rfl⟩

/-- C2 amended: a transform failure does not leave siblings unharmed — the
loop aborts at the first failing file. Files before it are converted (their
outputs stay in the local array), the failing file is the last one
attempted, files after it are never attempted, and because the download
step is skipped on the thrown error, nothing at all is downloaded. -/
theorem convertLoop_failure_aborts (fmt : List Char) (pre : List SrcFile)
    (f : SrcFile) (post : List SrcFile) (s : ConvState)
    (hpre : ∀ g ∈ pre, g.ok = true) (hf : f.ok = false) :
    convertLoop fmt (pre ++ f :: post) =
      ⟨pre.map (fun g => outputFileName fmt g.name),
       pre.map SrcFile.name ++ [f.name], some f.name⟩ ∧
    (handleConversion fmt (pre ++ f :: post) s).downloads = [] := by
  have hloop : convertLoop fmt (pre ++ f :: post) =
      ⟨pre.map (fun g => outputFileName fmt g.name),
       pre.map SrcFile.name ++ [f.name], some f.name⟩ := by
    induction pre with
    | nil => simp [convertLoop, hf]
    | cons g gs ih =>
      have hg : g.ok = true := hpre g (by simp)
      have hrec := ih (fun x hx => hpre x (by simp [hx]))
      simp [convertLoop, hg, hrec]
  refine ⟨hloop, ?_⟩
  have hlen : ¬ (pre ++ f :: post).length = 0 := by simp
  simp [handleConversion, hlen, hloop]

/-- Witness for C2 amended at a concrete batch [a.png (ok), bad.png
(failing), c.png (ok)]. -/
theorem convertLoop_failure_aborts_witness :
    (∀ g ∈ [SrcFile.mk "a.png".data true], g.ok = true) ∧
    (SrcFile.mk "bad.png".data false).ok = false ∧
    (convertLoop "webp".data
        ([SrcFile.mk "a.png".data true] ++
          SrcFile.mk "bad.png".data false :: [SrcFile.mk "c.png".data true]) =
      ⟨[SrcFile.mk "a.png".data true].map
          (fun g => outputFileName "webp".data g.name),
       [SrcFile.mk "a.png".data true].map SrcFile.name ++ ["bad.png".data],
       some "bad.png".data⟩ ∧
    (handleConversion "webp".data
        ([SrcFile.mk "a.png".data true] ++
          SrcFile.mk "bad.png".data false :: [SrcFile.mk "c.png".data true])
        ⟨false, 0⟩).downloads = []) :=
  ⟨by decide, rfl,
    convertLoop_failure_aborts "webp".data [SrcFile.mk "a.png".data true]
      (SrcFile.mk "bad.png".data false) [SrcFile.mk "c.png".data true]
      ⟨false, 0⟩ (by decide) rfl⟩

/-- C8 fails on the code: removal is positional and not idempotent. Removing
the only file succeeds and revokes its preview once, but the second call
with the same (now unknown) position reads .preview of undefined and throws
a TypeError instead of silently doing nothing. -/
theorem remove_unknown_throws_cex :
    removeFile [⟨"a.png".data, "blob:a.png".data⟩] 0 =
      Except.ok ([], "blob:a.png".data) ∧
    removeFile ([] : List TrackedImg) 0 = Except.error "TypeError".data :=
  ⟨rfl, rfl⟩

/-- C8 amended: removeFile removes one entry by index. On a valid index it
removes exactly that entry (take the part before, drop past it) and revokes
exactly that one preview handle; on an out-of-range index it throws a
TypeError rather than silently no-oping. -/
theorem removeFile_spec (files : List TrackedImg) (i : ℕ) :
    (∀ h : i < files.length,
        removeFile files i =
          Except.ok (files.take i ++ files.drop (i + 1),
            (files.get ⟨i, h⟩).preview)) ∧
    (files.length ≤ i → removeFile files i = Except.error "TypeError".data) := by
  constructor
  · intro h
    simp [removeFile, h, List.eraseIdx_eq_take_drop_succ]
  · intro h
    have h2 : ¬ i < files.length := not_lt.mpr h
    simp [removeFile, h2]

/-- Witness for C8 amended: both branches evaluated at concrete inputs. -/
theorem removeFile_spec_witness :
    ((0 : ℕ) < ([⟨"a.png".data, "blob:a.png".data⟩] : List TrackedImg).length) ∧
    removeFile [⟨"a.png".data, "blob:a.png".data⟩] 0 =
      Except.ok (([⟨"a.png".data, "blob:a.png".data⟩] : List TrackedImg).take 0 ++
          ([⟨"a.png".data, "blob:a.png".data⟩] : List TrackedImg).drop 1,
        (([⟨"a.png".data, "blob:a.png".data⟩] : List TrackedImg).get
          ⟨0, by decide⟩).preview) ∧
    (([] : List TrackedImg).length ≤ 3 ∧
      removeFile ([] : List TrackedImg) 3 = Except.error "TypeError".data) :=
  ⟨by decide,
   (removeFile_spec [⟨"a.png".data, "blob:a.png".data⟩] 0).1 (by decide),
   by decide, (removeFile_spec ([] : List TrackedImg) 3).2 (by decide)⟩

/-- C9 fails on the code: intake does not enforce the size ceiling. A file
of 10485761 bytes (one over the 10 MB threshold) only triggers the console
warning and is nevertheless appended to the tracked set. -/
theorem oversize_added_cex :
    (onDrop [] [⟨"big.png".data, 10485761⟩]).1 =
      [⟨"big.png".data, 10485761, "blob:big.png".data, FileStatus.pending⟩] ∧
    (onDrop [] [⟨"big.png".data, 10485761⟩]).2 = true ∧
    sizeWarnLimit < 10485761 := by
  decide

/-- C9 amended: media-type filtering is delegated to the dropzone accept
configuration; every file the dropzone delivers to onDrop is appended to
the tracked set with a fresh preview handle and pending status regardless
of its size, and the only effect of the 10 MB ceiling is a console warning
that fires exactly when some delivered file exceeds it. -/
theorem onDrop_adds_all (prev : List DroppedFile) (accepted : List RawFile) :
    (onDrop prev accepted).1 =
      prev ++ accepted.map
        (fun f => ⟨f.name, f.size, mkPreview f, FileStatus.pending⟩) ∧
    (∀ f ∈ accepted,
        (⟨f.name, f.size, mkPreview f, FileStatus.pending⟩ : DroppedFile) ∈
          (onDrop prev accepted).1) ∧
    ((onDrop prev accepted).2 = true ↔ ∃ f ∈ accepted, sizeWarnLimit < f.size) := by
  refine ⟨rfl, ?_, ?_⟩
  · intro f hf
    simp only [onDrop, List.mem_append, List.mem_map]
    exact Or.inr ⟨f, hf, rfl⟩
  · simp [onDrop, List.any_eq_true]

/-- Witness for C9 amended: the oversize file is in the tracked set and the
warning fires. -/
theorem onDrop_adds_all_witness :
    ((⟨"big.png".data, 10485761⟩ : RawFile) ∈ [(⟨"big.png".data, 10485761⟩ : RawFile)]) ∧
    (⟨"big.png".data, 10485761, mkPreview ⟨"big.png".data, 10485761⟩,
        FileStatus.pending⟩ : DroppedFile) ∈
      (onDrop [] [⟨"big.png".data, 10485761⟩]).1 :=
  ⟨by decide,
   (onDrop_adds_all [] [⟨"big.png".data, 10485761⟩]).2.1
     ⟨"big.png".data, 10485761⟩ (by decide)⟩

/-- C7: the claim is right and the code is wrong. The unmount cleanup effect
is registered with an empty dependency list, so its closure captures the
files state of the first render — the initial empty array. Failing input:
mount the component, drop a.png, unmount without removing or clearing. The
preview handle of a.png is still live at teardown, yet the cleanup revokes
nothing, so that handle is revoked zero times, not exactly once. -/
theorem teardown_leaks_preview :
    liveHandles (compDrop mountComp [⟨"a.png".data, 5⟩]) = ["blob:a.png".data] ∧
    unmountRevoked (compDrop mountComp [⟨"a.png".data, 5⟩]) = [] := by
  decide

/-- C6 fails on the code: handleConvert maps every file to converting at
batch start, whatever its current status. A file already done (complete)
from an earlier run is moved back to converting by a second run — a
transition out of the complete status without any fresh intake — and in a
two-file batch the second file is already converting at batch start, before
the run reaches it. -/
theorem status_leaves_done_cex :
    convertSteps [FileStatus.done] 0 = [FileStatus.converting] ∧
    ¬ (FileStatus.converting = FileStatus.done) ∧
    ¬ (FileStatus.converting = FileStatus.error) ∧
    convertSteps [FileStatus.pending, FileStatus.pending] 0 =
      [FileStatus.converting, FileStatus.converting] := by
  decide

/-- C6 amended: within one handleConvert run over n files, the status list
is fully determined: at batch start every file (whatever its previous
status, including done) is set to converting, and after the first k loop
iterations exactly the files at indices below k are done and all others are
converting. In particular the error status is never produced, processing is
entered for every file at batch start rather than when the run reaches it,
and a new run does move files out of done. -/
theorem convertSteps_status (ss : List FileStatus) (k j : ℕ)
    (hj : j < ss.length) :
    (convertSteps ss k)[j]? =
      some (if j < k then FileStatus.done else FileStatus.converting) := by
  induction k with
  | zero =>
    simp only [convertSteps, batchStart, List.getElem?_map,
      List.getElem?_eq_getElem hj, Option.map_some]
    simp
  | succ k ih =>
    simp only [convertSteps, markDone, getElem?_mapWithIndex, ih, Nat.zero_add,
      Option.map_some]
    by_cases hjk : j = k
    · simp [hjk]
    · by_cases hlt : j < k
      · have : j < k + 1 := by omega
        simp [hjk, hlt, this]
      · have : ¬ j < k + 1 := by omega
        simp [hjk, hlt, this]

/-- Witness for C6 amended: after batch start and one loop iteration over a
two-file batch, file 0 is done and file 1 is converting. -/
theorem convertSteps_status_witness :
    ((1 : ℕ) < ([FileStatus.pending, FileStatus.done] : List FileStatus).length) ∧
    (convertSteps [FileStatus.pending, FileStatus.done] 1)[1]? =
      some (if 1 < 1 then FileStatus.done else FileStatus.converting) ∧
    (convertSteps [FileStatus.pending, FileStatus.done] 1)[0]? =
      some (if 0 < 1 then FileStatus.done else FileStatus.converting) :=
  ⟨by decide,
   convertSteps_status [FileStatus.pending, FileStatus.done] 1 1 (by decide),
   convertSteps_status [FileStatus.pending, FileStatus.done] 1 0 (by decide)⟩

/-- C1 fails on the code: convertImage draws on a canvas whose dimensions
are the native image dimensions and never consults the configured bounds.
With bounds 800 x 600 and a 1600 x 1200 source, the output is 1600 x 1200,
violating newW ≤ maxWidth, while the resize the claim describes would give
800 x 600. -/
theorem resize_missing_cex :
    convertDims ⟨ImgFormat.webp, 80, 800, 600⟩ 1600 1200 = (1600, 1200) ∧
    ¬ ((convertDims ⟨ImgFormat.webp, 80, 800, 600⟩ 1600 1200).1 ≤ 800) ∧
    specTargetDims ⟨ImgFormat.webp, 80, 800, 600⟩ 1600 1200 = (800, 600) := by
  refine ⟨rfl, by decide, ?_⟩
  have hscale : min (min ((800 : ℚ) / 1600) ((600 : ℚ) / 1200)) 1 = 1 / 2 := by
    norm_num
  simp only [specTargetDims]
  rw [if_neg (by norm_num)]
  push_cast
  rw [hscale]
  norm_num [round_eq]
  decide

/-- C1 amended: the transform never rescales — for every image and every
settings snapshot the output dimensions equal the native (W, H) exactly.
This coincides with the dimensions the claim demands precisely in the case
the claim got right: when W ≤ maxWidth and H ≤ maxHeight. -/
theorem convertDims_native (s : ConvSettings) (w h : ℕ) :
    convertDims s w h = (w, h) ∧
    (w ≤ s.maxWidth → h ≤ s.maxHeight → convertDims s w h = specTargetDims s w h) := by
  refine ⟨rfl, fun h1 h2 => ?_⟩
  simp [convertDims, specTargetDims, h1, h2]

/-- Witness for C1 amended at a 100 x 50 image within 800 x 600 bounds. -/
theorem convertDims_native_witness :
    convertDims ⟨ImgFormat.webp, 80, 800, 600⟩ 100 50 = (100, 50) ∧
    convertDims ⟨ImgFormat.webp, 80, 800, 600⟩ 100 50 =
      specTargetDims ⟨ImgFormat.webp, 80, 800, 600⟩ 100 50 :=
  ⟨(convertDims_native ⟨ImgFormat.webp, 80, 800, 600⟩ 100 50).1,
   (convertDims_native ⟨ImgFormat.webp, 80, 800, 600⟩ 100 50).2
     (by decide) (by decide)⟩

/-- C4 fails on the code: canvas.toBlob is called with the literal quality
0.9, not with settings.quality / 100. With the quality setting 80 the
claimed factor would be 0.8. -/
theorem quality_hardcoded_cex :
    toBlobQuality ⟨ImgFormat.webp, 80, 800, 600⟩ ≠
      (((⟨ImgFormat.webp, 80, 800, 600⟩ : ConvSettings).quality : ℚ) / 100) := by
  simp only [toBlobQuality]
  norm_num

/-- C4 amended: the encoder is always invoked with the fixed quality factor
0.9 (and the MIME type built from the target format); this equals
settings.quality / 100 exactly when the quality setting is 90. -/
theorem toBlobQuality_fixed (s : ConvSettings) :
    toBlobQuality s = 9 / 10 ∧
    toBlobMime "webp".data = "image/webp".data ∧
    (toBlobQuality s = (s.quality : ℚ) / 100 ↔ s.quality = 90) := by
  refine ⟨rfl, by decide, ?_, ?_⟩
  · intro hq
    simp only [toBlobQuality] at hq
    have h90 : (s.quality : ℚ) = 90 := by linarith
    exact_mod_cast h90
  · intro hq
    simp [toBlobQuality, hq]
    norm_num

/-- Witness for C4 amended at quality 90, the one value where the claim and
the code agree. -/
theorem toBlobQuality_fixed_witness :
    toBlobQuality ⟨ImgFormat.jpeg, 90, 1920, 1080⟩ = 9 / 10 ∧
    toBlobQuality ⟨ImgFormat.jpeg, 90, 1920, 1080⟩ =
      (((⟨ImgFormat.jpeg, 90, 1920, 1080⟩ : ConvSettings).quality : ℚ) / 100) :=
  ⟨(toBlobQuality_fixed ⟨ImgFormat.jpeg, 90, 1920, 1080⟩).1,
   (toBlobQuality_fixed ⟨ImgFormat.jpeg, 90, 1920, 1080⟩).2.2.mpr rfl⟩

/-- C3 fails on the code: in a batch of one file whose conversion fails, the
file finishes with an error, yet the aggregate progress is never set to
100 * 1 / 1 = 100 — the only progress writes are the initial 0 and the
final reset to 0 in the finally block. -/
theorem progress_error_no_update_cex :
    (handleConversion "webp".data [⟨"bad.png".data, false⟩]
        ⟨false, 0⟩).progressWrites = [0, 0] ∧
    ¬ ((100 : ℚ) ∈ (handleConversion "webp".data [⟨"bad.png".data, false⟩]
        ⟨false, 0⟩).progressWrites) := by
  refine ⟨rfl, fun hmem => ?_⟩
  rw [show (handleConversion "webp".data [⟨"bad.png".data, false⟩]
      ⟨false, 0⟩).progressWrites = [0, 0] from rfl] at hmem
  simp only [List.mem_cons, List.not_mem_nil, or_false] at hmem
  rcases hmem with h | h <;> norm_num at h

/-- C3 amended: progress is recomputed only after successfully converted
files. In a run in which every file converts, the k-th loop write equals
100 * (k + 1) / n, the writes are non-decreasing from the initial 0 through
the loop, and the write after the last file is exactly 100; the handler
then resets progress to 0 on exit (finally block), and a failing file stops
the loop with no write of its own. -/
theorem progress_all_success (fmt : List Char) (files : List SrcFile)
    (s : ConvState) (hok : ∀ g ∈ files, g.ok = true) (hne : files ≠ []) :
    progressLoop files.length files 0 =
      (List.range files.length).map
        (fun (k : ℕ) => (((k : ℚ) + 1) / (files.length : ℚ)) * 100) ∧
    List.Chain' (fun a b => a ≤ b)
      ((0 : ℚ) :: progressLoop files.length files 0) ∧
    (progressLoop files.length files 0).getLast? = some 100 ∧
    (handleConversion fmt files s).progressWrites =
      (0 : ℚ) :: progressLoop files.length files 0 ++ [(0 : ℚ)] := by
  refine ⟨?_, ?_, progressLoop_getLast files hok hne, ?_⟩
  · rw [progressLoop_formula _ _ _ hok]
    apply List.map_congr_left
    intro k _
    norm_num
  · have hn : 0 < files.length := List.length_pos.mpr hne
    apply progressLoop_chain files.length hn files 0 0 hok
    positivity
  · have hlen : ¬ files.length = 0 := by simpa using hne
    simp [handleConversion, hlen]

/-- Witness for C3 amended at a concrete all-success batch of one file. -/
theorem progress_all_success_witness :
    (∀ g ∈ [SrcFile.mk "a.png".data true], g.ok = true) ∧
    ([SrcFile.mk "a.png".data true] : List SrcFile) ≠ [] ∧
    (progressLoop 1 [SrcFile.mk "a.png".data true] 0 =
      (List.range 1).map (fun (k : ℕ) => (((k : ℚ) + 1) / ((1 : ℕ) : ℚ)) * 100) ∧
    List.Chain' (fun a b => a ≤ b)
      ((0 : ℚ) :: progressLoop 1 [SrcFile.mk "a.png".data true] 0) ∧
    (progressLoop 1 [SrcFile.mk "a.png".data true] 0).getLast? = some 100 ∧
    (handleConversion "webp".data [SrcFile.mk "a.png".data true]
        ⟨false, 0⟩).progressWrites =
      (0 : ℚ) :: progressLoop 1 [SrcFile.mk "a.png".data true] 0 ++ [(0 : ℚ)]) :=
  ⟨by decide, by decide,
    progress_all_success "webp".data [SrcFile.mk "a.png".data true]
      ⟨false, 0⟩ (by decide) (by decide)⟩

end ImageConv
